import Mathlib

/-!
Verification of the Babel Bridge streaming-recognition core against its
specification.  The JavaScript sources are shallowly embedded: strings are
`List Char`, IEEE doubles used for times and similarity scores are modelled
as exact rationals (`ℚ`), byte buffers are `List Nat` with explicit `< 256`
bounds, and stateful classes become explicit state-passing functions.
-/

namespace BabelBridge

/-! ## Text similarity utilities (src/lib/text-similarity.js) -/

/-- Punctuation characters removed by `normalizeText` (the regex character
class in text-similarity.js line 108). -/
def punctuationChars : List Char :=
  [ '.', ',', '!', '?', ';', ':', '\'', '"', '(', ')', '[', ']',
    '\x7b', '\x7d', '-', '_', '/', '\\',
    '。', '，', '！', '？', '；', '：', '「', '」', '『', '』', '（', '）', '、' ]

def isPunctChar (c : Char) : Bool := punctuationChars.contains c

/-- Whitespace characters matched by the JavaScript `\s` class / `trim()`
(ASCII subset; the sources only ever contain these). -/
def isJsWhitespaceChar (c : Char) : Bool :=
  [' ', '\t', '\n', '\r', '\x0b', '\x0c'].contains c

/-- JavaScript `replace(/\s+/g, ' ')`: every maximal whitespace run becomes a
single space. -/
def collapseWhitespace : List Char → List Char
  | [] => []
  | [c] => if isJsWhitespaceChar c then [' '] else [c]
  | c1 :: c2 :: rest =>
    if isJsWhitespaceChar c1 && isJsWhitespaceChar c2 then
      collapseWhitespace (c2 :: rest)
    else
      (if isJsWhitespaceChar c1 then ' ' else c1) :: collapseWhitespace (c2 :: rest)

/-- JavaScript `String.prototype.trim`. -/
def jsTrim (l : List Char) : List Char :=
  ((l.dropWhile isJsWhitespaceChar).reverse.dropWhile isJsWhitespaceChar).reverse

/-- Embeds `normalizeText` with its default options (removePunctuation, toLowerCase,
collapse whitespace then trim) — text-similarity.js lines 95–125. -/
def normalizeText (text : List Char) : List Char :=
  jsTrim (collapseWhitespace ((text.filter (fun c => !(isPunctChar c))).map Char.toLower))

/-- The Levenshtein recurrence computed by the DP table in
`levenshteinDistance` (text-similarity.js lines 48–76): first row/column are
the lengths, inner cells take the minimum of delete, insert and substitute. -/
def levRec : List Char → List Char → Nat
  | [], ys => ys.length
  | xs, [] => xs.length
  | x :: xs, y :: ys =>
    let cost := if x = y then 0 else 1
    min (levRec xs (y :: ys) + 1) (min (levRec (x :: xs) ys + 1) (levRec xs ys + cost))
  termination_by xs ys => xs.length + ys.length

/-- Embeds `levenshteinDistance` with the default `caseSensitive = false`: both
strings are lower-cased before the DP. -/
def levenshteinDistance (source target : List Char) : Nat :=
  levRec (source.map Char.toLower) (target.map Char.toLower)

/-- Embeds `calculateSimilarity` (text-similarity.js lines 149–185) with the default
`normalize = true`; `maxLength = none` models the default `Infinity`. -/
def calculateSimilarity (text1 text2 : List Char) (maxLength : Option Nat := none) : ℚ :=
  let str1 := normalizeText text1
  let str2 := normalizeText text2
  if str1 = str2 then 1
  else
    let len1 := str1.length
    let len2 := str2.length
    let lengthDiff : Nat := ((len1 : ℤ) - (len2 : ℤ)).natAbs
    let maxLen := max len1 len2
    if 0 < maxLen ∧ ((lengthDiff : ℚ) / (maxLen : ℚ) > 0.5) then 0
    else
      let s1 := match maxLength with | some m => str1.take m | none => str1
      let s2 := match maxLength with | some m => str2.take m | none => str2
      let distance := levenshteinDistance s1 s2
      let similarity := if 0 < maxLen then ((maxLen : ℚ) - (distance : ℚ)) / (maxLen : ℚ) else 0
      max 0 (min 1 similarity)

/-- Jaccard character-set similarity used by `quickSimilarityCheck`
(text-similarity.js lines 221–227). -/
def jaccardSimilarity (s1 s2 : List Char) : ℚ :=
  let chars1 := s1.dedup
  let chars2 := s2.dedup
  let interSize := (chars1.filter (fun c => chars2.contains c)).length
  let unionSize := ((chars1 ++ chars2).dedup).length
  (interSize : ℚ) / (unionSize : ℚ)

/-- Embeds `quickSimilarityCheck` (text-similarity.js lines 202–231): accept equal
normalized strings, reject when the length difference exceeds
`1 - threshold` of the longer string, otherwise compare Jaccard similarity
against `threshold * 0.6`. -/
def quickSimilarityCheck (text1 text2 : List Char) (threshold : ℚ := 0.8) : Bool :=
  let str1 := normalizeText text1
  let str2 := normalizeText text2
  if str1 = str2 then true
  else
    let len1 := str1.length
    let len2 := str2.length
    let lengthDiff : Nat := ((len1 : ℤ) - (len2 : ℤ)).natAbs
    let maxLen := max len1 len2
    if 0 < maxLen ∧ ((lengthDiff : ℚ) / (maxLen : ℚ) > 1 - threshold) then false
    else
      decide (jaccardSimilarity str1 str2 ≥ threshold * 0.6)

/-! ## OverlapProcessor (src/background/subtitle-processor.js) -/

/-- A transcript segment; times in seconds (exact rationals model the JS
doubles). `endTime` embeds the source field `end` (a Lean keyword). -/
structure Segment where
  start : ℚ
  endTime : ℚ
  text : List Char
deriving DecidableEq, Repr

/-- OverlapProcessor configuration with the defaults from the constructor
(subtitle-processor.js lines 42–50). `overlapDuration` is in milliseconds. -/
structure OPConfig where
  overlapDuration : ℚ := 1000
  similarityThreshold : ℚ := 0.8
  mergeTimeGap : ℚ := 0.3
  maxCompareLength : Nat := 100
deriving Repr

/-- Mutable fields of the OverlapProcessor instance. -/
structure OPState where
  previousSegments : Option (List Segment) := none
  processedSegments : List Segment := []
  chunkCount : Nat := 0
deriving Repr

namespace OverlapProcessor

/-- Embeds `_adjustTimestamps`: shift each segment by the chunk start time
(the `_originalStart/_originalEnd` debug fields are not modelled). -/
def adjustTimestamps (segments : List Segment) (chunkStartTime : ℚ) : List Segment :=
  segments.map fun seg =>
    { seg with start := seg.start + chunkStartTime, endTime := seg.endTime + chunkStartTime }

/-- Embeds `_calculateTimeOverlap`: length of the intersection of two segments. -/
def calculateTimeOverlap (seg1 seg2 : Segment) : ℚ :=
  let overlapStart := max seg1.start seg2.start
  let overlapEnd := min seg1.endTime seg2.endTime
  max 0 (overlapEnd - overlapStart)

/-- The `timeOverlapRatio` computed in `_findDuplicates` (lines 235–241):
overlap length over the shorter duration, 0 when the shorter duration is
not positive. -/
def timeOverlapFraction (prev curr : Segment) : ℚ :=
  let prevDuration := prev.endTime - prev.start
  let currDuration := curr.endTime - curr.start
  let minDuration := min prevDuration currDuration
  if 0 < minDuration then calculateTimeOverlap prev curr / minDuration else 0

/-- The per-pair duplicate test in the inner loop of `_findDuplicates`
(subtitle-processor.js lines 222–277): quick similarity pre-check, then
time-overlap fraction `> 0.8`, or fraction `> 0.5` together with text
similarity above the threshold. -/
def isDuplicatePair (cfg : OPConfig) (prev curr : Segment) : Bool :=
  quickSimilarityCheck prev.text curr.text cfg.similarityThreshold &&
    (decide (timeOverlapFraction prev curr > 0.8) ||
     (decide (timeOverlapFraction prev curr > 0.5) &&
      decide (calculateSimilarity prev.text curr.text (some cfg.maxCompareLength) >
                cfg.similarityThreshold)))

/-- Embeds `_findDuplicates`: collect, over the current-overlap segments paired with
their index in the full current list (JS recovers that index with
`indexOf`, which on distinct objects is the position), the indices for which
some previous-overlap segment passes `isDuplicatePair`; the `break` after a
match only stops scanning further previous segments. -/
def findDuplicates (cfg : OPConfig) (prevOverlap : List Segment)
    (currOverlap : List (Nat × Segment)) : List Nat :=
  currOverlap.foldl
    (fun acc p => if prevOverlap.any (fun prev => isDuplicatePair cfg prev p.2) then
        acc ++ [p.1]
      else acc)
    []

/-- Embeds `_processOverlap` (subtitle-processor.js lines 159–199): restrict both
windows to the 1 s overlap region, mark duplicates, and keep a current
segment when it starts at or after the overlap end or is not marked. -/
def processOverlap (cfg : OPConfig) (previousSegments currentSegments : List Segment)
    (chunkStartTime : ℚ) : List Segment :=
  let overlapStart := chunkStartTime
  let overlapEnd := chunkStartTime + cfg.overlapDuration / 1000
  let prevOverlap := previousSegments.filter fun seg =>
    decide (seg.endTime > overlapStart) && decide (seg.start < overlapEnd)
  let currIndexed := currentSegments.enum
  let currOverlap := currIndexed.filter fun p =>
    decide (p.2.start < overlapEnd) && decide (p.2.endTime > overlapStart)
  let duplicateIndices := findDuplicates cfg prevOverlap currOverlap
  (currIndexed.filter fun p =>
      decide (p.2.start ≥ overlapEnd) || !(duplicateIndices.contains p.1)).map Prod.snd

/-- Embeds `process` (subtitle-processor.js lines 76–121): adjust timestamps, return
everything for the first chunk, otherwise deduplicate against the previous
window; returns the new state and the emitted segments. -/
def process (cfg : OPConfig) (st : OPState) (segments : List Segment)
    (chunkStartTime : ℚ) : OPState × List Segment :=
  let adjustedSegments := adjustTimestamps segments chunkStartTime
  match st.previousSegments with
  | none =>
    ({ previousSegments := some adjustedSegments,
       processedSegments := adjustedSegments,
       chunkCount := st.chunkCount + 1 }, adjustedSegments)
  | some prev =>
    let newSegments := processOverlap cfg prev adjustedSegments chunkStartTime
    ({ previousSegments := some adjustedSegments,
       processedSegments := st.processedSegments ++ newSegments,
       chunkCount := st.chunkCount + 1 }, newSegments)

/-- Embeds `reset` (subtitle-processor.js lines 368–373). -/
def reset (_st : OPState) : OPState :=
  { previousSegments := none, processedSegments := [], chunkCount := 0 }

end OverlapProcessor

/-! ## Deepgram streaming client (src/background/deepgram-stream-client.js) -/

/-- Embeds `DEEPGRAM_CONFIG` connection-management constants (config.js lines
399–402). -/
def KEEPALIVE_INTERVAL : Nat := 5000
def RECONNECT_MAX_RETRIES : Nat := 5
def RECONNECT_DELAY : Nat := 1000

/-- Embeds `ConnectionState` (deepgram-stream-client.js lines 25–31). -/
inductive ConnectionState where
  | disconnected
  | connecting
  | connected
  | closing
  | error
deriving DecidableEq, Repr

/-- The client fields relevant to reconnection and keep-alive. -/
structure ClientState where
  connectionState : ConnectionState := .disconnected
  reconnectAttempts : Nat := 0
  /-- pending reconnect delay in ms, `none` when no timer is set -/
  reconnectTimer : Option Nat := none
  keepAliveTimerOn : Bool := false
deriving DecidableEq, Repr

namespace DeepgramStreamClient

/-- Embeds `scheduleReconnect` (deepgram-stream-client.js lines 493–507): increment
the attempt counter, then set a timer for `RECONNECT_DELAY * attempts`. -/
def scheduleReconnect (s : ClientState) : ClientState :=
  let attempts := s.reconnectAttempts + 1
  { s with reconnectAttempts := attempts,
           reconnectTimer := some (RECONNECT_DELAY * attempts) }

/-- Embeds `stopKeepAlive` (deepgram-stream-client.js lines 482–487). -/
def stopKeepAlive (s : ClientState) : ClientState :=
  { s with keepAliveTimerOn := false }

/-- Embeds `handleClose` (deepgram-stream-client.js lines 403–420): go to
`disconnected`, stop keep-alive, and when the close was not clean and fewer
than `RECONNECT_MAX_RETRIES` attempts were used, schedule a reconnect.  The
second component is the list of messages delivered to the `onError`
callback during the call: `handleClose` never invokes it. -/
def handleClose (s : ClientState) (wasClean : Bool) : ClientState × List String :=
  let s1 := stopKeepAlive { s with connectionState := .disconnected }
  if !wasClean && s1.reconnectAttempts < RECONNECT_MAX_RETRIES then
    (scheduleReconnect s1, [])
  else
    (s1, [])

/-- The successful path of `connect` (deepgram-stream-client.js lines
105–157): `updateState(CONNECTING)`, the `open` event moves the state to
`connected` (`handleOpen`), `waitForConnection` resolves, and the attempt
counter is reset to 0. -/
def connectSucceed (s : ClientState) : ClientState :=
  let s1 := { s with connectionState := .connecting }
  let s2 := { s1 with connectionState := .connected }
  { s2 with reconnectAttempts := 0 }

/-- The body of `JSON.stringify (\x7b type: 'KeepAlive' \x7d)` sent by the
keep-alive timer. -/
def keepAliveMessage : String := "\x7b\"type\":\"KeepAlive\"\x7d"

/-- One firing of the `startKeepAlive` interval timer (deepgram-stream-client.js
lines 463–476, started from `connect` in the keep-alive variant of the
client): when the state is `connected` a KeepAlive text frame is sent and
the state is left untouched. -/
def keepAliveTick (s : ClientState) : ClientState × Option String :=
  if s.connectionState = .connected then (s, some keepAliveMessage) else (s, none)

/-- Firing times of a `setInterval(f, intervalMs)` timer within the first
`horizonMs` milliseconds after it is started. -/
def intervalFireTimes (intervalMs horizonMs : Nat) : List Nat :=
  (List.range (horizonMs / intervalMs)).map fun k => (k + 1) * intervalMs

/-- The timestamped text frames sent by the keep-alive timer over a horizon
during which no audio is sent and the state stays `s`. -/
def keepAliveTrace (s : ClientState) (intervalMs horizonMs : Nat) : List (Nat × String) :=
  (intervalFireTimes intervalMs horizonMs).filterMap fun t =>
    ((keepAliveTick s).2).map fun m => (t, m)

end DeepgramStreamClient

/-! ## Crypto utilities (src/lib/crypto-utils.js)

`crypto.subtle` (PBKDF2 key derivation and AES-256-GCM) is a platform
primitive, not repository code; it is modelled by an `AEADPrimitive`
structure whose fields record exactly the properties the platform
guarantees: derivation is a deterministic function of the key material and
salt, decryption inverts encryption under the same key and IV, and
ciphertexts are byte strings.  `btoa`/`atob` are modelled by an executable
standard base64 codec. -/

/-- The standard base64 alphabet used by `btoa`/`atob`. -/
def base64Alphabet : List Char :=
  "ABCDEFGHIJKLMNOPQRSTUVWXYZabcdefghijklmnopqrstuvwxyz0123456789+/".toList

def base64Char (n : Nat) : Char := base64Alphabet.getD n '='

def base64Index (c : Char) : Nat := base64Alphabet.indexOf c

/-- Embeds `btoa` on a byte list: each 3-byte group becomes 4 alphabet characters,
with `=` padding for a 1- or 2-byte tail. -/
def encodeBase64 : List Nat → List Char
  | [] => []
  | [a] => [base64Char (a / 4), base64Char (a % 4 * 16), '=', '=']
  | [a, b] =>
    [base64Char (a / 4), base64Char (a % 4 * 16 + b / 16), base64Char (b % 16 * 4), '=']
  | a :: b :: c :: rest =>
    base64Char (a / 4) :: base64Char (a % 4 * 16 + b / 16) ::
      base64Char (b % 16 * 4 + c / 64) :: base64Char (c % 64) :: encodeBase64 rest

/-- Embeds `atob` on well-formed base64 text. -/
def decodeBase64 : List Char → List Nat
  | c0 :: c1 :: c2 :: c3 :: rest =>
    let d0 := base64Index c0
    let d1 := base64Index c1
    if c2 = '=' then [d0 * 4 + d1 / 16]
    else
      let d2 := base64Index c2
      if c3 = '=' then [d0 * 4 + d1 / 16, d1 % 16 * 16 + d2 / 4]
      else
        [d0 * 4 + d1 / 16, d1 % 16 * 16 + d2 / 4, d2 % 4 * 64 + base64Index c3] ++
          decodeBase64 rest
  | _ => []

/-- Interface of the `crypto.subtle` primitives used by `CryptoUtils`:
PBKDF2 key derivation from key material and salt, and AES-GCM
encryption/decryption under a key and IV.  `decrypt_encrypt` is the AEAD
correctness guarantee; `encrypt_bytes_lt` records that ciphertexts are byte
strings. -/
structure AEADPrimitive (K : Type) where
  deriveKey : List Char → List Nat → K
  encryptRaw : K → List Nat → List Nat → List Nat
  decryptRaw : K → List Nat → List Nat → Option (List Nat)
  decrypt_encrypt : ∀ k iv m, decryptRaw k iv (encryptRaw k iv m) = some m
  encrypt_bytes_lt : ∀ k iv m, (∀ b ∈ m, b < 256) → ∀ b ∈ encryptRaw k iv m, b < 256

namespace CryptoUtils

def SALT_LENGTH : Nat := 16
def IV_LENGTH : Nat := 12

variable {K : Type}

/-- Embeds `CryptoUtils.encrypt` (crypto-utils.js lines 141–192): derive the key
from fingerprint-plus-password key material and a fresh salt, AES-GCM
encrypt under a fresh IV, and base64-encode `salt ++ iv ++ ciphertext`.
The randomly generated salt and IV are passed as arguments. -/
def encrypt (P : AEADPrimitive K) (fingerprint password : List Char)
    (salt iv : List Nat) (plaintextBytes : List Nat) : List Char :=
  let key := P.deriveKey (fingerprint ++ password) salt
  let encryptedData := P.encryptRaw key iv plaintextBytes
  let combined := salt ++ iv ++ encryptedData
  encodeBase64 combined

/-- Embeds `CryptoUtils.decrypt` (crypto-utils.js lines 200–257): base64-decode,
split off the 16-byte salt and 12-byte IV, re-derive the key with the
stored salt, and AES-GCM decrypt the remainder. -/
def decrypt (P : AEADPrimitive K) (fingerprint password : List Char)
    (encryptedBase64 : List Char) : Option (List Nat) :=
  let combined := decodeBase64 encryptedBase64
  let salt := combined.take SALT_LENGTH
  let iv := (combined.drop SALT_LENGTH).take IV_LENGTH
  let encryptedData := combined.drop (SALT_LENGTH + IV_LENGTH)
  let key := P.deriveKey (fingerprint ++ password) salt
  P.decryptRaw key iv encryptedData

/-- ASCII string encryption: `TextEncoder` on an ASCII string is the list of
character codes. -/
def encryptString (P : AEADPrimitive K) (fingerprint password : List Char)
    (salt iv : List Nat) (plaintext : List Char) : List Char :=
  encrypt P fingerprint password salt iv (plaintext.map Char.toNat)

/-- ASCII string decryption (`TextDecoder` after `decrypt`). -/
def decryptString (P : AEADPrimitive K) (fingerprint password : List Char)
    (encryptedBase64 : List Char) : Option (List Char) :=
  (decrypt P fingerprint password encryptedBase64).map (List.map Char.ofNat)

end CryptoUtils

/-! ## Deepgram API key manager (src/lib/deepgram-key-manager.js) -/

/-- The `ErrorCodes` used by the key manager (errors.js lines 78–90). -/
inductive ErrorCode where
  | deepgramApiKeyInvalid
  | deepgramApiKeyNotFound
  | deepgramApiKeyDecryptFailed
  | deepgramApiKeyPermissionDenied
  | deepgramRateLimitExceeded
  | deepgramServiceUnavailable
  | deepgramNetworkError
  | cryptoError
  | unknownError
deriving DecidableEq, Repr

/-- Characters accepted by the key-format pattern `/^[A-Za-z0-9_-]+$/`. -/
def isValidKeyChar (c : Char) : Bool :=
  ('A' ≤ c && c ≤ 'Z') || ('a' ≤ c && c ≤ 'z') || ('0' ≤ c && c ≤ '9') || c = '_' || c = '-'

/-- Outcome of the `fetch` to the Deepgram auth endpoint: either a transport
failure or an HTTP response carrying a status and (for 2xx) the scopes and
project UUID of the key. -/
inductive FetchOutcome where
  | transportError
  | response (status : Nat) (scopes : List (List Char)) (projectUuid : List Char)
deriving DecidableEq, Repr

/-- The fields of the verification result used by `verifyAndSave`. -/
structure VerifyResult where
  scopes : List (List Char)
  projectUuid : List Char
deriving DecidableEq, Repr

/-- The four Deepgram entries of `chrome.storage.local`
(STORAGE_KEYS, config.js lines 522–525). -/
structure DGStorage where
  encryptedKey : Option (List Char) := none
  verifiedAt : Option Nat := none
  scopes : Option (List (List Char)) := none
  projectUuid : Option (List Char) := none
deriving DecidableEq, Repr

namespace DeepgramKeyManager

/-- Embeds `validateFormat` (deepgram-key-manager.js lines 152–180): trim, then fail
when empty, shorter than 32 characters, or containing a character outside
`[A-Za-z0-9_-]`; otherwise return the trimmed key. -/
def validateFormat (apiKey : List Char) : Except ErrorCode (List Char) :=
  let trimmedKey := jsTrim apiKey
  if trimmedKey.isEmpty then .error .deepgramApiKeyInvalid
  else if trimmedKey.length < 32 then .error .deepgramApiKeyInvalid
  else if !(trimmedKey.all isValidKeyChar) then .error .deepgramApiKeyInvalid
  else .ok trimmedKey

/-- Embeds `verifyKey` (deepgram-key-manager.js lines 191–287): validate the format,
issue the GET with the validated key, and map the response status: 401 →
invalid, 403 → permission denied, 429 → rate limited, 5xx → service
unavailable, other non-2xx → unknown, transport failure → network error.
The network is modelled by the function `fetchAuth` from the presented
credential to the outcome. -/
def verifyKey (apiKey : List Char) (fetchAuth : List Char → FetchOutcome) :
    Except ErrorCode VerifyResult := do
  let validatedKey ← validateFormat apiKey
  match fetchAuth validatedKey with
  | .transportError => .error .deepgramNetworkError
  | .response status scopes projectUuid =>
    if status = 401 then .error .deepgramApiKeyInvalid
    else if status = 403 then .error .deepgramApiKeyPermissionDenied
    else if status = 429 then .error .deepgramRateLimitExceeded
    else if 500 ≤ status then .error .deepgramServiceUnavailable
    else if !(200 ≤ status && status < 300) then .error .unknownError
    else .ok { scopes := scopes, projectUuid := projectUuid }

/-- Embeds `verifyAndSave` (deepgram-key-manager.js lines 301–326): verify, then
encrypt — note that the *raw* `apiKey` argument is passed to the encryption
step, not the validated key — then write all four storage entries in one
`chrome.storage.local.set`.  `encryptOp` stands for the awaited
`CryptoUtils.encrypt` call (which may throw); `now` is `Date.now()`.  The
second component is the storage after the call. -/
def verifyAndSave (apiKey : List Char) (fetchAuth : List Char → FetchOutcome)
    (encryptOp : List Char → Except ErrorCode (List Char)) (now : Nat)
    (storage : DGStorage) : Except ErrorCode VerifyResult × DGStorage :=
  match verifyKey apiKey fetchAuth with
  | .error e => (.error e, storage)
  | .ok verificationResult =>
    match encryptOp apiKey with
    | .error e => (.error e, storage)
    | .ok encryptedKey =>
      (.ok verificationResult,
       { encryptedKey := some encryptedKey,
         verifiedAt := some now,
         scopes := some verificationResult.scopes,
         projectUuid := some verificationResult.projectUuid })

/-- Embeds `getKey` (deepgram-key-manager.js lines 334–359): read the encrypted
entry, fail with not-found when absent, otherwise decrypt (decryption
failure becomes the decrypt-failed error). -/
def getKey {K : Type} (P : AEADPrimitive K) (fingerprint password : List Char)
    (storage : DGStorage) : Except ErrorCode (List Char) :=
  match storage.encryptedKey with
  | none => .error .deepgramApiKeyNotFound
  | some encryptedKey =>
    match CryptoUtils.decryptString P fingerprint password encryptedKey with
    | none => .error .deepgramApiKeyDecryptFailed
    | some key => .ok key

/-- Embeds `hasKey` (deepgram-key-manager.js lines 366–371). -/
def hasKey (storage : DGStorage) : Bool :=
  storage.encryptedKey.isSome

end DeepgramKeyManager

/-! ## PCM AudioWorklet processor (src/offscreen/pcm-processor.js) -/

namespace PCMProcessor

def outputSampleRate : Nat := 16000

/-- Embeds `frameSize = Math.floor(outputSampleRate * 0.02)` (20 ms per frame). -/
def frameSize : Nat := (⌊(outputSampleRate : ℚ) * 0.02⌋).toNat

/-- Mutable fields of the worklet processor; the resample factor
(`inputSampleRate / outputSampleRate`) is passed separately. -/
structure PCMState where
  resampleBuffer : List ℚ := []
  resamplePosition : ℚ := 0
  frameBuffer : List ℚ := []
  frames : List (List ℤ) := []
  totalSamples : Nat := 0
  totalFrames : Nat := 0

/-- The sample conversion in `sendPCMFrame` (pcm-processor.js lines 121–126):
clamp the float to `[-1, 1]` and take `Math.floor(clamped * 32767)`. -/
def int16OfSample (x : ℚ) : ℤ :=
  ⌊(max (-1) (min 1 x)) * 32767⌋

/-- Embeds `sendPCMFrame`'s conversion of the frame buffer to Int16 values. -/
def sendPCMFrame (frameBuffer : List ℚ) : List ℤ :=
  frameBuffer.map int16OfSample

/-- Appending one resampled output sample to the frame buffer; when the
buffer reaches `frameSize` the frame is converted and emitted and the index
resets (the body of the inner `while` in `process`, lines 70–81). -/
def pushOutputSample (s : PCMState) (outputSample : ℚ) : PCMState :=
  let frameBuffer := s.frameBuffer ++ [outputSample]
  if frameSize ≤ frameBuffer.length then
    { s with frameBuffer := [],
             frames := s.frames ++ [sendPCMFrame frameBuffer],
             totalFrames := s.totalFrames + 1 }
  else
    { s with frameBuffer := frameBuffer }

/-- Embeds `linearInterpolate` (pcm-processor.js lines 90–112).  The trailing
`while (resamplePosition >= 1.0 && resampleBuffer.length > 0)` removal loop
shifts `min ⌊position⌋ length` samples and decrements the position by the
same amount. -/
def linearInterpolate (resampleFactor : ℚ) (s : PCMState) : ℚ × PCMState :=
  if s.resampleBuffer.length < 2 then
    match s.resampleBuffer with
    | [] => (0, s)
    | x :: rest => (x, { s with resampleBuffer := rest })
  else
    let fraction := s.resamplePosition - ⌊s.resamplePosition⌋
    let index := (⌊s.resamplePosition⌋).toNat
    let sample1 := s.resampleBuffer.getD index 0
    let sample2 := s.resampleBuffer.getD (index + 1) 0
    let interpolated := sample1 + (sample2 - sample1) * fraction
    let position := s.resamplePosition + resampleFactor
    let shiftCount := min (⌊position⌋).toNat s.resampleBuffer.length
    (interpolated,
     { s with resampleBuffer := s.resampleBuffer.drop shiftCount,
              resamplePosition := position - shiftCount })

/-- The `while (resampleBuffer.length >= resampleRatio)` loop in `process`
(pcm-processor.js lines 70–81), with explicit fuel: each iteration consumes
at least one buffered sample when the factor is at least 1, so
`length + 1` fuel suffices at the call site. -/
def resampleLoop (resampleFactor : ℚ) : Nat → PCMState → PCMState
  | 0, s => s
  | fuel + 1, s =>
    if resampleFactor ≤ (s.resampleBuffer.length : ℚ) then
      let step := linearInterpolate resampleFactor s
      resampleLoop resampleFactor fuel (pushOutputSample step.2 step.1)
    else s

/-- Handling of one input sample in `process`: push it onto the resample
buffer, then drain the buffer through `resampleLoop`. -/
def processChannelSample (resampleFactor : ℚ) (s : PCMState) (x : ℚ) : PCMState :=
  let s1 := { s with resampleBuffer := s.resampleBuffer ++ [x] }
  resampleLoop resampleFactor (s1.resampleBuffer.length + 1) s1

/-- Embeds `process(inputs, outputs, parameters)` (pcm-processor.js lines 48–85):
take the first input's channel 0 (`input[0]` — stereo is downmixed by
selecting the left channel), count the samples, and feed each through the
resampler. -/
def process (resampleFactor : ℚ) (s : PCMState) (inputs : List (List (List ℚ))) : PCMState :=
  match inputs.head? with
  | none => s
  | some input =>
    if input.isEmpty then s
    else
      match input.head? with
      | none => s
      | some inputChannel =>
        if inputChannel.isEmpty then s
        else
          let s1 := { s with totalSamples := s.totalSamples + inputChannel.length }
          inputChannel.foldl (processChannelSample resampleFactor) s1

/-- Well-formedness of the emitted frames: every frame is the Int16
conversion of a full `frameSize`-sample buffer, and the building buffer is
never full. -/
def framesWellFormed (s : PCMState) : Prop :=
  (∀ f ∈ s.frames, ∃ src : List ℚ, src.length = frameSize ∧ f = sendPCMFrame src) ∧
    s.frameBuffer.length < frameSize

end PCMProcessor

/-! ## Batch timeline alignment (service-worker.js, `SubtitleService.processChunk`) -/

namespace SubtitleService

/-- The dynamic time-sync step of `processChunk`: when
`getCurrentVideoTime()` answers, the corrected chunk start is the current
video time minus the chunk's audio duration; on failure the
offscreen-computed `videoStartTime` is kept. -/
def correctedVideoStartTime (currentVideoTime : Option ℚ)
    (videoStartTime audioStartTime audioEndTime : ℚ) : ℚ :=
  match currentVideoTime with
  | some t => t - (audioEndTime - audioStartTime)
  | none => videoStartTime

end SubtitleService

/-! ## Concrete sample values used to instantiate the theorems -/

/-- A client state with one reconnect attempt already used. -/
def clientStateOneAttempt : ClientState :=
  { connectionState := .connected, reconnectAttempts := 1,
    reconnectTimer := none, keepAliveTimerOn := true }

/-- A freshly opened client session. -/
def clientStateFresh : ClientState :=
  { connectionState := .connected, reconnectAttempts := 0,
    reconnectTimer := none, keepAliveTimerOn := true }

/-- A degenerate but lawful instantiation of the platform AEAD interface,
used to evaluate the crypto layer on concrete inputs. -/
def idPrimitive : AEADPrimitive (List Char × List Nat) where
  deriveKey keyMaterial salt := (keyMaterial, salt)
  encryptRaw _ _ m := m
  decryptRaw _ _ c := some c
  decrypt_encrypt _ _ _ := rfl
  encrypt_bytes_lt _ _ _ h := h

/-- Previous-window segment for the dedup counterexample: 1 s long, lying
in the overlap region, text of ten `a`s. -/
def prevSegDup : Segment := { start := 2, endTime := 3, text := List.replicate 10 'a' }

/-- Current-window segment for the dedup counterexample: fully overlapping
`prevSegDup` in time, text of five `a`s (same character set, half the
length). -/
def currSegDup : Segment := { start := 2, endTime := 3, text := List.replicate 5 'a' }

/-- An OverlapProcessor state past its first chunk. -/
def opStateSecond : OPState :=
  { previousSegments := some [], processedSegments := [], chunkCount := 1 }

/-- A whitespace-padded but otherwise valid 32-character API key. -/
def paddedApiKey : List Char := ' ' :: ' ' :: (List.replicate 32 'a' ++ [' '])

/-- A verification endpoint that accepts every credential. -/
def accept200 : List Char → FetchOutcome := fun _ => .response 200 [] []

/-! ## Base64 codec correctness -/

lemma base64Index_base64Char_mem :
    ∀ n ∈ List.range 64, base64Index (base64Char n) = n := by decide

lemma base64Index_base64Char {n : Nat} (h : n < 64) :
    base64Index (base64Char n) = n :=
  base64Index_base64Char_mem n (List.mem_range.mpr h)

lemma base64Char_ne_pad_mem : ∀ n ∈ List.range 64, base64Char n ≠ '=' := by decide

lemma base64Char_ne_pad {n : Nat} (h : n < 64) : base64Char n ≠ '=' :=
  base64Char_ne_pad_mem n (List.mem_range.mpr h)

/-- The base64 codec round-trips on byte lists. -/
theorem decodeBase64_encodeBase64 :
    ∀ l : List Nat, (∀ b ∈ l, b < 256) → decodeBase64 (encodeBase64 l) = l
  | [], _ => by simp [encodeBase64, decodeBase64]
  | [a], h => by
    have ha : a < 256 := h a (by simp)
    have h1 : a / 4 < 64 := by omega
    have h2 : a % 4 * 16 < 64 := by omega
    simp only [encodeBase64, decodeBase64, if_pos rfl,
      base64Index_base64Char h1, base64Index_base64Char h2]
    simp only [if_true, List.cons_append, List.nil_append, List.append_nil, List.cons.injEq,
      eq_self_iff_true, and_true]
    omega
  | [a, b], h => by
    have ha : a < 256 := h a (by simp)
    have hb : b < 256 := h b (by simp)
    have h1 : a / 4 < 64 := by omega
    have h2 : a % 4 * 16 + b / 16 < 64 := by omega
    have h3 : b % 16 * 4 < 64 := by omega
    simp only [encodeBase64, decodeBase64, if_neg (base64Char_ne_pad h3), if_pos rfl,
      base64Index_base64Char h1, base64Index_base64Char h2, base64Index_base64Char h3]
    simp only [if_true, List.cons_append, List.nil_append, List.append_nil, List.cons.injEq,
      eq_self_iff_true, and_true]
    omega
  | a :: b :: c :: rest, h => by
    have ha : a < 256 := h a (by simp)
    have hb : b < 256 := h b (by simp)
    have hc : c < 256 := h c (by simp)
    have h1 : a / 4 < 64 := by omega
    have h2 : a % 4 * 16 + b / 16 < 64 := by omega
    have h3 : b % 16 * 4 + c / 64 < 64 := by omega
    have h4 : c % 64 < 64 := by omega
    have ih := decodeBase64_encodeBase64 rest (fun x hx => h x (by simp [hx]))
    simp only [encodeBase64, decodeBase64, if_neg (base64Char_ne_pad h3),
      if_neg (base64Char_ne_pad h4), base64Index_base64Char h1, base64Index_base64Char h2,
      base64Index_base64Char h3, base64Index_base64Char h4, ih]
    simp only [if_true, List.cons_append, List.nil_append, List.append_nil, List.cons.injEq,
      eq_self_iff_true, and_true]
    omega

namespace CryptoUtils

/-- On the same device (same fingerprint and password), decrypting an
encrypted record recovers the plaintext bytes. -/
theorem decrypt_encrypt_bytes (P : AEADPrimitive K) (fingerprint password : List Char)
    (salt iv m : List Nat) (hs : salt.length = SALT_LENGTH) (hi : iv.length = IV_LENGTH)
    (hsb : ∀ b ∈ salt, b < 256) (hib : ∀ b ∈ iv, b < 256) (hmb : ∀ b ∈ m, b < 256) :
    decrypt P fingerprint password (encrypt P fingerprint password salt iv m) = some m := by
  have hcb : ∀ b ∈ salt ++ iv ++ P.encryptRaw (P.deriveKey (fingerprint ++ password) salt) iv m,
      b < 256 := by
    intro b hbmem
    simp only [List.append_assoc, List.mem_append] at hbmem
    rcases hbmem with hmem | hmem | hmem
    · exact hsb b hmem
    · exact hib b hmem
    · exact P.encrypt_bytes_lt _ _ _ hmb b hmem
  have hsplit : decodeBase64 (encodeBase64
      (salt ++ iv ++ P.encryptRaw (P.deriveKey (fingerprint ++ password) salt) iv m)) =
      salt ++ iv ++ P.encryptRaw (P.deriveKey (fingerprint ++ password) salt) iv m :=
    decodeBase64_encodeBase64 _ hcb
  have htake : ∀ c : List Nat, (salt ++ iv ++ c).take SALT_LENGTH = salt := by
    intro c
    rw [List.append_assoc, ← hs, List.take_left]
  have hdrop : ∀ c : List Nat, (salt ++ iv ++ c).drop SALT_LENGTH = iv ++ c := by
    intro c
    rw [List.append_assoc, ← hs, List.drop_left]
  have hdrop2 : ∀ c : List Nat, (salt ++ iv ++ c).drop (SALT_LENGTH + IV_LENGTH) = c := by
    intro c
    have hlen : (salt ++ iv).length = SALT_LENGTH + IV_LENGTH := by
      simp [List.length_append, hs, hi]
    rw [← hlen, List.drop_left]
  simp only [decrypt, encrypt, hsplit, htake, hdrop, hdrop2, List.take_left' hi]
  exact P.decrypt_encrypt _ _ _

/-- String-level round trip for plaintexts of byte-sized characters. -/
theorem decryptString_encryptString (P : AEADPrimitive K) (fingerprint password : List Char)
    (salt iv : List Nat) (s : List Char) (hs : salt.length = SALT_LENGTH)
    (hi : iv.length = IV_LENGTH) (hsb : ∀ b ∈ salt, b < 256) (hib : ∀ b ∈ iv, b < 256)
    (hsc : ∀ c ∈ s, c.toNat < 256) :
    decryptString P fingerprint password (encryptString P fingerprint password salt iv s) =
      some s := by
  unfold decryptString encryptString
  rw [decrypt_encrypt_bytes P fingerprint password salt iv _ hs hi hsb hib
    (by intro b hb; obtain ⟨c, hc, rfl⟩ := List.mem_map.mp hb; exact hsc c hc)]
  simp only [Option.map_some']
  congr 1
  rw [List.map_map]
  exact List.map_congr_left (fun c _ => Char.ofNat_toNat c) |>.trans (List.map_id s)

end CryptoUtils

/-! ## Helper lemmas -/

namespace OverlapProcessor

/-- Membership in the accumulated duplicate-index list. -/
lemma mem_findDuplicates_iff (cfg : OPConfig) (prevOverlap : List Segment)
    (currOverlap : List (Nat × Segment)) (i : Nat) :
    i ∈ findDuplicates cfg prevOverlap currOverlap ↔
      ∃ c, (i, c) ∈ currOverlap ∧
        prevOverlap.any (fun prev => isDuplicatePair cfg prev c) = true := by
  have general : ∀ (l : List (Nat × Segment)) (acc : List Nat),
      i ∈ l.foldl (fun acc p =>
          if prevOverlap.any (fun prev => isDuplicatePair cfg prev p.2) then acc ++ [p.1]
          else acc) acc ↔
        i ∈ acc ∨ ∃ c, (i, c) ∈ l ∧
          prevOverlap.any (fun prev => isDuplicatePair cfg prev c) = true := by
    intro l
    induction l with
    | nil => simp
    | cons hd tl ih =>
      intro acc
      simp only [List.foldl_cons]
      by_cases hdup : prevOverlap.any (fun prev => isDuplicatePair cfg prev hd.2) = true
      · rw [if_pos hdup, ih]
        simp only [List.mem_append, List.mem_cons, List.not_mem_nil, or_false]
        constructor
        · rintro ((hacc | rfl) | ⟨c, hc, hany⟩)
          · exact Or.inl hacc
          · exact Or.inr ⟨hd.2, Or.inl Prod.mk.eta, hdup⟩
          · exact Or.inr ⟨c, Or.inr hc, hany⟩
        · rintro (hacc | ⟨c, (heq | hc), hany⟩)
          · exact Or.inl (Or.inl hacc)
          · exact Or.inl (Or.inr (congrArg Prod.fst heq))
          · exact Or.inr ⟨c, hc, hany⟩
      · rw [if_neg hdup, ih]
        simp only [List.mem_cons]
        constructor
        · rintro (hacc | ⟨c, hc, hany⟩)
          · exact Or.inl hacc
          · exact Or.inr ⟨c, Or.inr hc, hany⟩
        · rintro (hacc | ⟨c, (heq | hc), hany⟩)
          · exact Or.inl hacc
          · refine absurd ?_ hdup
            have hsnd : hd.2 = c := (congrArg Prod.snd heq).symm
            rw [hsnd]
            exact hany
          · exact Or.inr ⟨c, hc, hany⟩
  rw [findDuplicates, general]
  simp

/-- The dedup filter of `_processOverlap`, with the imperative index set
replaced by its defining condition. -/
lemma processOverlap_eq (cfg : OPConfig) (prevSegs currSegs : List Segment) (t : ℚ) :
    processOverlap cfg prevSegs currSegs t =
      (currSegs.enum.filter fun p =>
        decide (p.2.start ≥ t + cfg.overlapDuration / 1000) ||
        !(decide (p.2.start < t + cfg.overlapDuration / 1000) && decide (p.2.endTime > t) &&
          (prevSegs.filter fun q =>
              decide (q.endTime > t) && decide (q.start < t + cfg.overlapDuration / 1000)).any
            fun q => isDuplicatePair cfg q p.2)).map Prod.snd := by
  simp only [processOverlap]
  congr 1
  apply List.filter_congr
  intro p hp
  congr 1
  congr 1
  rw [Bool.eq_iff_iff]
  rw [List.elem_iff, mem_findDuplicates_iff]
  simp only [Bool.and_eq_true, decide_eq_true_eq]
  constructor
  · rintro ⟨c, hcmem, hany⟩
    have hcf := List.mem_filter.mp hcmem
    have hget1 := List.mem_enum_iff_getElem?.mp hcf.1
    have hget2 := List.mem_enum_iff_getElem?.mp hp
    have hc : c = p.2 := Option.some_injective _ (hget1.symm.trans hget2)
    subst hc
    have hcond := hcf.2
    simp only [Bool.and_eq_true, decide_eq_true_eq] at hcond
    exact ⟨⟨hcond.1, hcond.2⟩, hany⟩
  · rintro ⟨⟨h1, h2⟩, hany⟩
    refine ⟨p.2, List.mem_filter.mpr ⟨?_, ?_⟩, hany⟩
    · have : (p.1, p.2) = p := Prod.mk.eta
      rw [this]
      exact hp
    · simp only [Bool.and_eq_true, decide_eq_true_eq]
      exact ⟨h1, h2⟩

/-- Unfolding of the per-pair duplicate test into the claim's condition. -/
lemma isDuplicatePair_iff (cfg : OPConfig) (p c : Segment) :
    isDuplicatePair cfg p c = true ↔
      (quickSimilarityCheck p.text c.text cfg.similarityThreshold = true ∧
       (timeOverlapFraction p c > 0.8 ∨
        (timeOverlapFraction p c > 0.5 ∧
         calculateSimilarity p.text c.text (some cfg.maxCompareLength) >
           cfg.similarityThreshold))) := by
  simp [isDuplicatePair, Bool.and_eq_true, Bool.or_eq_true, decide_eq_true_eq]



/-- Everything returned by `processOverlap` is one of the current segments. -/
lemma processOverlap_subset (cfg : OPConfig) (prev curr : List Segment) (t : ℚ) :
    ∀ seg ∈ processOverlap cfg prev curr t, seg ∈ curr := by
  intro seg hmem
  unfold processOverlap at hmem
  obtain ⟨⟨i, seg'⟩, hmem', rfl⟩ := List.mem_map.mp hmem
  have hmem2 := List.mem_of_mem_filter hmem'
  have hget := List.mem_enum_iff_getElem?.mp hmem2
  exact List.getElem?_mem hget

/-- Everything returned by `process` is a time-shifted input segment. -/
lemma process_mem_shift (cfg : OPConfig) (st : OPState) (segments : List Segment) (t : ℚ) :
    ∀ seg ∈ (process cfg st segments t).2, ∃ orig ∈ segments,
      seg.start = orig.start + t ∧ seg.endTime = orig.endTime + t ∧ seg.text = orig.text := by
  intro seg hmem
  have hadj : seg ∈ adjustTimestamps segments t := by
    unfold process at hmem
    cases hprev : st.previousSegments with
    | none => rw [hprev] at hmem; exact hmem
    | some prev => rw [hprev] at hmem; exact processOverlap_subset cfg prev _ t seg hmem
  obtain ⟨orig, horig, rfl⟩ := List.mem_map.mp hadj
  exact ⟨orig, horig, rfl, rfl, rfl⟩

end OverlapProcessor

/-! ## Levenshtein and similarity lemmas -/

/-- The Levenshtein recurrence is symmetric. -/
theorem levRec_comm : ∀ xs ys : List Char, levRec xs ys = levRec ys xs
  | [], [] => rfl
  | [], _ :: _ => by simp [levRec]
  | _ :: _, [] => by simp [levRec]
  | x :: xs, y :: ys => by
    have ih1 := levRec_comm xs (y :: ys)
    have ih2 := levRec_comm (x :: xs) ys
    have ih3 := levRec_comm xs ys
    simp only [levRec]
    rw [ih1, ih2, ih3]
    by_cases hxy : x = y
    · rw [if_pos hxy, if_pos hxy.symm]
      omega
    · rw [if_neg hxy, if_neg (fun h => hxy h.symm)]
      omega
  termination_by xs ys => xs.length + ys.length

theorem levenshteinDistance_comm (s1 s2 : List Char) :
    levenshteinDistance s1 s2 = levenshteinDistance s2 s1 := by
  unfold levenshteinDistance
  exact levRec_comm _ _

theorem calculateSimilarity_comm (x y : List Char) (mL : Option Nat) :
    calculateSimilarity x y mL = calculateSimilarity y x mL := by
  cases mL with
  | none =>
    simp only [calculateSimilarity]
    by_cases h : normalizeText x = normalizeText y
    · rw [if_pos h, if_pos h.symm]
    · rw [if_neg h,
        if_neg (show ¬(normalizeText y = normalizeText x) from fun hh => h hh.symm)]
      rw [Nat.max_comm (normalizeText y).length (normalizeText x).length,
        show (((normalizeText y).length : ℤ) - ((normalizeText x).length : ℤ)).natAbs =
          (((normalizeText x).length : ℤ) - ((normalizeText y).length : ℤ)).natAbs by
            rw [← Int.natAbs_neg, neg_sub],
        levenshteinDistance_comm (normalizeText y) (normalizeText x)]
  | some m =>
    simp only [calculateSimilarity]
    by_cases h : normalizeText x = normalizeText y
    · rw [if_pos h, if_pos h.symm]
    · rw [if_neg h,
        if_neg (show ¬(normalizeText y = normalizeText x) from fun hh => h hh.symm)]
      rw [Nat.max_comm (normalizeText y).length (normalizeText x).length,
        show (((normalizeText y).length : ℤ) - ((normalizeText x).length : ℤ)).natAbs =
          (((normalizeText x).length : ℤ) - ((normalizeText y).length : ℤ)).natAbs by
            rw [← Int.natAbs_neg, neg_sub],
        levenshteinDistance_comm ((normalizeText y).take m) ((normalizeText x).take m)]

theorem calculateSimilarity_bounds (x y : List Char) (mL : Option Nat) :
    0 ≤ calculateSimilarity x y mL ∧ calculateSimilarity x y mL ≤ 1 := by
  simp only [calculateSimilarity]
  split_ifs with h1 h2 h3
  · norm_num
  · norm_num
  · exact ⟨le_max_left _ _, max_le (by norm_num) (min_le_left _ _)⟩
  · exact ⟨le_max_left _ _, max_le (by norm_num) (min_le_left _ _)⟩

/-! ## PCM processor frame lemmas -/

namespace PCMProcessor

theorem frameSize_eq : frameSize = 320 := by
  norm_num [frameSize, outputSampleRate]
  rfl

theorem int16OfSample_bounds (x : ℚ) :
    -32767 ≤ int16OfSample x ∧ int16OfSample x ≤ 32767 := by
  unfold int16OfSample
  have hlo : (-1 : ℚ) ≤ max (-1) (min 1 x) := le_max_left _ _
  have hhi : max (-1) (min 1 x) ≤ 1 := max_le (by norm_num) (min_le_left _ _)
  constructor
  · rw [Int.le_floor]
    push_cast
    nlinarith
  · have : (max (-1) (min 1 x)) * 32767 ≤ 32767 := by nlinarith
    calc ⌊(max (-1) (min 1 x)) * 32767⌋ ≤ ⌊(32767 : ℚ)⌋ := Int.floor_le_floor this
    _ = 32767 := by norm_num

/-- Transfer of the frame invariant along states with equal frame fields. -/
theorem framesWellFormed_congr {s t : PCMState} (h : framesWellFormed s)
    (hf : t.frames = s.frames) (hb : t.frameBuffer = s.frameBuffer) :
    framesWellFormed t := by
  unfold framesWellFormed at h ⊢
  rw [hf, hb]
  exact h

theorem pushOutputSample_wf (s : PCMState) (x : ℚ) (h : framesWellFormed s) :
    framesWellFormed (pushOutputSample s x) := by
  obtain ⟨hframes, hbuf⟩ := h
  unfold pushOutputSample
  by_cases hfull : frameSize ≤ (s.frameBuffer ++ [x]).length
  · rw [if_pos hfull]
    have hlen : (s.frameBuffer ++ [x]).length = frameSize := by
      simp only [List.length_append, List.length_singleton] at hfull ⊢
      omega
    constructor
    · intro f hf
      simp only [List.mem_append, List.mem_singleton] at hf
      rcases hf with hf | rfl
      · exact hframes f hf
      · exact ⟨s.frameBuffer ++ [x], hlen, rfl⟩
    · simpa using by rw [frameSize_eq]; norm_num
  · rw [if_neg hfull]
    exact ⟨hframes, by simpa using Nat.lt_of_not_le hfull⟩

theorem linearInterpolate_frameFields (f : ℚ) (s : PCMState) :
    ((linearInterpolate f s).2).frames = s.frames ∧
      ((linearInterpolate f s).2).frameBuffer = s.frameBuffer := by
  unfold linearInterpolate
  split_ifs with h
  · cases s.resampleBuffer with
    | nil => exact ⟨rfl, rfl⟩
    | cons a rest => exact ⟨rfl, rfl⟩
  · exact ⟨rfl, rfl⟩

theorem resampleLoop_wf (f : ℚ) : ∀ (fuel : Nat) (s : PCMState),
    framesWellFormed s → framesWellFormed (resampleLoop f fuel s)
  | 0, s, h => h
  | fuel + 1, s, h => by
    unfold resampleLoop
    split_ifs with hguard
    · refine resampleLoop_wf f fuel _ ?_
      refine pushOutputSample_wf _ _ ?_
      obtain ⟨hf, hb⟩ := linearInterpolate_frameFields f s
      exact framesWellFormed_congr h hf hb
    · exact h

theorem processChannelSample_wf (f : ℚ) (s : PCMState) (x : ℚ)
    (h : framesWellFormed s) : framesWellFormed (processChannelSample f s x) := by
  unfold processChannelSample
  exact resampleLoop_wf f _ _ (framesWellFormed_congr h rfl rfl)

theorem foldl_processChannelSample_wf (f : ℚ) :
    ∀ (l : List ℚ) (s : PCMState), framesWellFormed s →
      framesWellFormed (l.foldl (processChannelSample f) s)
  | [], s, h => h
  | x :: rest, s, h => by
    rw [List.foldl_cons]
    exact foldl_processChannelSample_wf f rest _ (processChannelSample_wf f s x h)

theorem process_wf (f : ℚ) (s : PCMState) (inputs : List (List (List ℚ)))
    (h : framesWellFormed s) : framesWellFormed (process f s inputs) := by
  cases inputs with
  | nil => exact h
  | cons input rest =>
    cases input with
    | nil => exact h
    | cons inputChannel chs =>
      by_cases hce : inputChannel.isEmpty
      · simp only [process, List.head?_cons, List.isEmpty_cons, Bool.false_eq_true,
          if_false, if_pos hce]
        exact h
      · simp only [process, List.head?_cons, List.isEmpty_cons, Bool.false_eq_true,
          if_false, if_neg hce]
        exact foldl_processChannelSample_wf f inputChannel _
          (framesWellFormed_congr h rfl rfl)

end PCMProcessor

/-- Unfolding of the quick similarity pre-check: it accepts equal normalized
texts, otherwise rejects on a length difference above `1 - threshold` of the
longer text, otherwise compares Jaccard similarity against `0.6 x threshold`. -/
lemma quickSimilarityCheck_iff (t1 t2 : List Char) (threshold : ℚ) :
    quickSimilarityCheck t1 t2 threshold = true ↔
      (normalizeText t1 = normalizeText t2 ∨
       (¬(0 < max (normalizeText t1).length (normalizeText t2).length ∧
           ((((((normalizeText t1).length : ℤ) - ((normalizeText t2).length : ℤ)).natAbs : ℚ)) /
             (((max (normalizeText t1).length (normalizeText t2).length : ℕ) : ℚ)) >
               1 - threshold)) ∧
        jaccardSimilarity (normalizeText t1) (normalizeText t2) ≥ threshold * 0.6)) := by
  simp only [quickSimilarityCheck]
  split_ifs with h1 h2
  · simp [h1]
  · simp only [Bool.false_eq_true, false_iff]
    rintro (heq | ⟨hno, _⟩)
    · exact h1 heq
    · exact hno h2
  · simp only [decide_eq_true_eq]
    constructor
    · intro hj
      exact Or.inr ⟨h2, hj⟩
    · rintro (heq | ⟨_, hj⟩)
      · exact absurd heq h1
      · exact hj

lemma normalize_replicate10 :
    normalizeText (List.replicate 10 'a') = List.replicate 10 'a' := by decide

lemma normalize_replicate5 :
    normalizeText (List.replicate 5 'a') = List.replicate 5 'a' := by decide

lemma quick_reject_dup :
    quickSimilarityCheck prevSegDup.text currSegDup.text 0.8 = false := by
  simp only [prevSegDup, currSegDup, quickSimilarityCheck, normalize_replicate10,
    normalize_replicate5]
  rw [if_neg (by decide), if_pos]
  constructor
  · simp [List.length_replicate]
  · simp only [List.length_replicate]
    norm_num

lemma isDuplicatePair_dup_false :
    OverlapProcessor.isDuplicatePair {} prevSegDup currSegDup = false := by
  simp only [OverlapProcessor.isDuplicatePair,
    show ({} : OPConfig).similarityThreshold = 0.8 from rfl, quick_reject_dup,
    Bool.false_and]

/-! ## Claim theorems -/

/-- C1 (amended): for a non-first chunk the overlap processor returns
exactly the time-shifted current segments that either start at or after the
end of the overlap region or are not marked duplicate; a segment in the
overlap region is marked duplicate exactly when some previous-window
segment in the region passes the quick similarity pre-check and has
timeOverlapRatio > 0.8, or timeOverlapRatio > 0.5 together with text
similarity above the threshold; and the quick pre-check accepts equal
normalized texts, rejects when the normalized length difference exceeds
(1 - threshold) of the longer text, and otherwise requires Jaccard
character-set similarity at least 0.6 x threshold. -/
theorem claim_C1 (cfg : OPConfig) (st : OPState) (prev : List Segment)
    (segments : List Segment) (t : ℚ) (hprev : st.previousSegments = some prev) :
    (OverlapProcessor.process cfg st segments t).2 =
      ((OverlapProcessor.adjustTimestamps segments t).enum.filter fun p =>
        decide (p.2.start ≥ t + cfg.overlapDuration / 1000) ||
        !(decide (p.2.start < t + cfg.overlapDuration / 1000) && decide (p.2.endTime > t) &&
          (prev.filter fun q =>
              decide (q.endTime > t) && decide (q.start < t + cfg.overlapDuration / 1000)).any
            fun q => OverlapProcessor.isDuplicatePair cfg q p.2)).map Prod.snd
    ∧ (∀ p c : Segment, OverlapProcessor.isDuplicatePair cfg p c = true ↔
        (quickSimilarityCheck p.text c.text cfg.similarityThreshold = true ∧
         (OverlapProcessor.timeOverlapFraction p c > 0.8 ∨
          (OverlapProcessor.timeOverlapFraction p c > 0.5 ∧
           calculateSimilarity p.text c.text (some cfg.maxCompareLength) >
             cfg.similarityThreshold))))
    ∧ (∀ u1 u2 : List Char, ∀ threshold : ℚ,
        quickSimilarityCheck u1 u2 threshold = true ↔
          (normalizeText u1 = normalizeText u2 ∨
           (¬(0 < max (normalizeText u1).length (normalizeText u2).length ∧
               ((((((normalizeText u1).length : ℤ) -
                   ((normalizeText u2).length : ℤ)).natAbs : ℚ)) /
                 (((max (normalizeText u1).length (normalizeText u2).length : ℕ) : ℚ)) >
                   1 - threshold)) ∧
            jaccardSimilarity (normalizeText u1) (normalizeText u2) ≥ threshold * 0.6))) := by
  refine ⟨?_, OverlapProcessor.isDuplicatePair_iff cfg, quickSimilarityCheck_iff⟩
  simp only [OverlapProcessor.process, hprev]
  exact OverlapProcessor.processOverlap_eq cfg prev _ t

/-- C1 (counterexample): with the default config, a previous segment of ten
`a`s and a current segment of five `a`s occupying the same second of the
overlap region have Jaccard character-set similarity 1 >= 0.6 x 0.8 (so the
claim's quick-reject does not fire) and timeOverlapRatio 1 > 0.8, so the
claim marks the current segment duplicate and omits it; the code's
quick-check, which also rejects on a length difference above
(1 - threshold), skips the pair, and the segment is returned. -/
theorem claim_C1_counterexample :
    OverlapProcessor.processOverlap {} [prevSegDup] [currSegDup] 2 = [currSegDup]
    ∧ jaccardSimilarity (normalizeText prevSegDup.text) (normalizeText currSegDup.text) ≥
        (0.8 : ℚ) * 0.6
    ∧ OverlapProcessor.timeOverlapFraction prevSegDup currSegDup > 0.8 := by
  refine ⟨?_, ?_, ?_⟩
  · have hoe : (2 : ℚ) + ({} : OPConfig).overlapDuration / 1000 = 3 := by
      rw [show ({} : OPConfig).overlapDuration = 1000 from rfl]
      norm_num
    simp only [OverlapProcessor.processOverlap, hoe]
    have hprevO : [prevSegDup].filter
        (fun seg => decide (seg.endTime > 2) && decide (seg.start < 3)) = [prevSegDup] := by
      decide
    have hcurrO : ([currSegDup].enum).filter
        (fun p => decide (p.2.start < 3) && decide (p.2.endTime > 2)) = [(0, currSegDup)] := by
      decide
    rw [hprevO, hcurrO]
    have hfd : OverlapProcessor.findDuplicates {} [prevSegDup] [(0, currSegDup)] = [] := by
      simp [OverlapProcessor.findDuplicates, isDuplicatePair_dup_false]
    rw [hfd]
    decide
  · rw [prevSegDup, currSegDup]
    simp only [normalize_replicate10, normalize_replicate5, jaccardSimilarity]
    rw [show (List.replicate 10 'a').dedup = ['a'] from by decide,
      show (List.replicate 5 'a').dedup = ['a'] from by decide]
    norm_num
  · simp only [OverlapProcessor.timeOverlapFraction, OverlapProcessor.calculateTimeOverlap,
      prevSegDup, currSegDup]
    norm_num

/-- C1 witness: the amended characterization applied to a concrete
non-first chunk. -/
theorem claim_C1_witness :
    (OverlapProcessor.process {} opStateSecond [] 0).2 = [] := by
  rw [(claim_C1 {} opStateSecond [] [] 0 rfl).1]
  rfl

/-- C2 (counterexample): when a non-clean close arrives with the reconnect
budget exhausted (`reconnectAttempts = 5`), the client delivers no message
to `onError` (no terminal Error is emitted) and schedules no reconnect —
the state merely becomes `disconnected`. -/
theorem claim_C2_counterexample :
    (DeepgramStreamClient.handleClose
      { connectionState := .connected, reconnectAttempts := 5,
        reconnectTimer := none, keepAliveTimerOn := false } false).2 = [] ∧
    (DeepgramStreamClient.handleClose
      { connectionState := .connected, reconnectAttempts := 5,
        reconnectTimer := none, keepAliveTimerOn := false } false).1 =
      { connectionState := .disconnected, reconnectAttempts := 5,
        reconnectTimer := none, keepAliveTimerOn := false } := by
  constructor <;> rfl

/-- C2 (amended): on a non-clean close with fewer than 5 attempts used, a
reconnect is scheduled after `1000 ms × attempt` with the attempt counter
incremented; once 5 attempts are used the client gives up silently —
no further reconnect is scheduled and no terminal Error is emitted; a clean
close never schedules a reconnect; and a successful open resets the attempt
counter to 0. -/
theorem claim_C2 (s : ClientState) :
    (s.reconnectAttempts < RECONNECT_MAX_RETRIES →
      DeepgramStreamClient.handleClose s false =
        ({ connectionState := .disconnected,
           reconnectAttempts := s.reconnectAttempts + 1,
           reconnectTimer := some (RECONNECT_DELAY * (s.reconnectAttempts + 1)),
           keepAliveTimerOn := false }, []))
    ∧ (RECONNECT_MAX_RETRIES ≤ s.reconnectAttempts →
      DeepgramStreamClient.handleClose s false =
        ({ s with connectionState := .disconnected, keepAliveTimerOn := false }, []))
    ∧ (DeepgramStreamClient.handleClose s true).1.reconnectTimer = s.reconnectTimer
    ∧ (DeepgramStreamClient.handleClose s true).2 = []
    ∧ (DeepgramStreamClient.connectSucceed s).reconnectAttempts = 0
    ∧ (DeepgramStreamClient.connectSucceed s).connectionState = .connected := by
  refine ⟨?_, ?_, ?_, ?_, rfl, rfl⟩
  · intro h
    simp [DeepgramStreamClient.handleClose, DeepgramStreamClient.stopKeepAlive,
      DeepgramStreamClient.scheduleReconnect, h]
  · intro h
    simp [DeepgramStreamClient.handleClose, DeepgramStreamClient.stopKeepAlive,
      Nat.not_lt.mpr h]
  · simp [DeepgramStreamClient.handleClose, DeepgramStreamClient.stopKeepAlive]
  · simp [DeepgramStreamClient.handleClose, DeepgramStreamClient.stopKeepAlive]

/-- C2 witness: the amended theorem applied at a concrete state with one
attempt used: the next non-clean close schedules a reconnect after
2000 ms. -/
theorem claim_C2_witness :
    DeepgramStreamClient.handleClose clientStateOneAttempt false =
      ({ connectionState := .disconnected, reconnectAttempts := 2,
         reconnectTimer := some 2000, keepAliveTimerOn := false }, []) :=
  (claim_C2 clientStateOneAttempt).1 (by decide)

/-- C4: `validateFormat` first trims whitespace and fails with the
invalid-format error exactly when the trimmed key is empty, shorter than 32
characters, or contains a character outside `[A-Za-z0-9_-]`; otherwise it
returns the trimmed key.  In particular `validateFormat "  abc123  "` fails
because the trimmed key `"abc123"` has length 6 < 32. -/
theorem claim_C4 :
    (∀ s : List Char,
      DeepgramKeyManager.validateFormat s =
        if jsTrim s = [] ∨ (jsTrim s).length < 32 ∨ ¬(∀ c ∈ jsTrim s, isValidKeyChar c = true)
        then Except.error ErrorCode.deepgramApiKeyInvalid
        else Except.ok (jsTrim s))
    ∧ DeepgramKeyManager.validateFormat "  abc123  ".toList =
        Except.error ErrorCode.deepgramApiKeyInvalid
    ∧ jsTrim "  abc123  ".toList = "abc123".toList
    ∧ ("abc123".toList.length < 32) := by
  refine ⟨?_, by rfl, by rfl, by decide⟩
  intro s
  simp only [DeepgramKeyManager.validateFormat]
  by_cases h1 : jsTrim s = []
  · simp [h1, List.isEmpty_iff]
  · by_cases h2 : (jsTrim s).length < 32
    · simp [h1, h2, List.isEmpty_iff]
    · by_cases h3 : ∀ c ∈ jsTrim s, isValidKeyChar c = true
      · have hall : (jsTrim s).all isValidKeyChar = true := List.all_eq_true.mpr h3
        have hno : ¬∃ c ∈ jsTrim s, isValidKeyChar c = false := by
          rintro ⟨c, hc, hfc⟩
          rw [h3 c hc] at hfc
          cases hfc
        simp [h1, h2, h3, List.isEmpty_iff, hall, hno]
      · have hall : ¬((jsTrim s).all isValidKeyChar = true) := fun hc => h3 (List.all_eq_true.mp hc)
        simp [h1, h2, h3, List.isEmpty_iff, hall]

/-- C5: `verifyAndSave` runs verify, then encrypt, then persists all four
entries at once; when the verification fails (transport error or any
non-2xx status) or the encryption step fails, the storage is unchanged, so
`hasKey()` observes no change. -/
theorem claim_C5 (apiKey : List Char) (fetchAuth : List Char → FetchOutcome)
    (encryptOp : List Char → Except ErrorCode (List Char)) (now : Nat) (storage : DGStorage) :
    (((∃ e, DeepgramKeyManager.verifyKey apiKey fetchAuth = Except.error e) ∨
      (∃ e, encryptOp apiKey = Except.error e)) →
      (DeepgramKeyManager.verifyAndSave apiKey fetchAuth encryptOp now storage).2 = storage ∧
      DeepgramKeyManager.hasKey
        (DeepgramKeyManager.verifyAndSave apiKey fetchAuth encryptOp now storage).2 =
        DeepgramKeyManager.hasKey storage)
    ∧ (∀ status scopes projectUuid, ¬(200 ≤ status ∧ status < 300) →
        ∃ e, DeepgramKeyManager.verifyKey apiKey
          (fun _ => .response status scopes projectUuid) = Except.error e)
    ∧ (∃ e, DeepgramKeyManager.verifyKey apiKey (fun _ => .transportError) = Except.error e) := by
  refine ⟨?_, ?_, ?_⟩
  · rintro (⟨e, he⟩ | ⟨e, he⟩)
    · constructor <;> simp [DeepgramKeyManager.verifyAndSave, he]
    · cases hv : DeepgramKeyManager.verifyKey apiKey fetchAuth with
      | error e2 => constructor <;> simp [DeepgramKeyManager.verifyAndSave, hv]
      | ok v => constructor <;> simp [DeepgramKeyManager.verifyAndSave, hv, he]
  · intro status scopes projectUuid hst
    cases hvf : DeepgramKeyManager.validateFormat apiKey with
    | error e => exact ⟨e, by simp only [DeepgramKeyManager.verifyKey, hvf]; rfl⟩
    | ok validatedKey =>
      have hbind : DeepgramKeyManager.verifyKey apiKey
          (fun _ => FetchOutcome.response status scopes projectUuid) =
          (if status = 401 then Except.error ErrorCode.deepgramApiKeyInvalid
          else if status = 403 then Except.error ErrorCode.deepgramApiKeyPermissionDenied
          else if status = 429 then Except.error ErrorCode.deepgramRateLimitExceeded
          else if 500 ≤ status then Except.error ErrorCode.deepgramServiceUnavailable
          else if !(200 ≤ status && status < 300) then Except.error ErrorCode.unknownError
          else Except.ok { scopes := scopes, projectUuid := projectUuid }) := by
        simp only [DeepgramKeyManager.verifyKey, hvf]
        rfl
      rw [hbind]
      split_ifs with h1 h2 h3 h4 h5
      · exact ⟨_, rfl⟩
      · exact ⟨_, rfl⟩
      · exact ⟨_, rfl⟩
      · exact ⟨_, rfl⟩
      · exact ⟨_, rfl⟩
      · refine absurd ?_ hst
        simp only [Bool.not_eq_true', Bool.and_eq_false_iff, decide_eq_false_iff_not,
          Nat.not_le, Nat.not_lt] at h5
        omega
  · cases hvf : DeepgramKeyManager.validateFormat apiKey with
    | error e => exact ⟨e, by simp only [DeepgramKeyManager.verifyKey, hvf]; rfl⟩
    | ok validatedKey =>
      exact ⟨.deepgramNetworkError, by simp only [DeepgramKeyManager.verifyKey, hvf]; rfl⟩

/-- C5 witness: with a valid-format key, a 500 response and a failing
encryption step, `verifyAndSave` leaves the storage untouched. -/
theorem claim_C5_witness :
    (DeepgramKeyManager.verifyAndSave (List.replicate 32 'a')
      (fun _ => .response 500 [] []) (fun _ => Except.error .cryptoError) 0 {}).2 = {} ∧
    DeepgramKeyManager.hasKey
      (DeepgramKeyManager.verifyAndSave (List.replicate 32 'a')
        (fun _ => .response 500 [] []) (fun _ => Except.error .cryptoError) 0 {}).2 =
      DeepgramKeyManager.hasKey {} :=
  (claim_C5 (List.replicate 32 'a') (fun _ => .response 500 [] [])
    (fun _ => Except.error .cryptoError) 0 {}).1
    (Or.inl ⟨.deepgramServiceUnavailable, by rfl⟩)

/-- C6: in the keep-alive variant (the `startKeepAlive` interval timer
running), while the session is `connected` and audio frames are paused the
timer sends the text message with body `type: KeepAlive` at every multiple
of 5000 ms; in particular over a 7-second silent window exactly one
KeepAlive is sent, at t = 5000 ms, and the state stays `connected`. -/
theorem claim_C6 (s : ClientState) (hconn : s.connectionState = .connected) :
    (∀ horizonMs, DeepgramStreamClient.keepAliveTrace s KEEPALIVE_INTERVAL horizonMs =
      (DeepgramStreamClient.intervalFireTimes KEEPALIVE_INTERVAL horizonMs).map
        (fun t => (t, DeepgramStreamClient.keepAliveMessage)))
    ∧ DeepgramStreamClient.keepAliveTrace s KEEPALIVE_INTERVAL 7000 =
        [(5000, DeepgramStreamClient.keepAliveMessage)]
    ∧ (DeepgramStreamClient.keepAliveTick s).1.connectionState = .connected := by
  have htick : DeepgramStreamClient.keepAliveTick s =
      (s, some DeepgramStreamClient.keepAliveMessage) := by
    simp [DeepgramStreamClient.keepAliveTick, hconn]
  refine ⟨?_, ?_, by rw [htick]; exact hconn⟩
  · intro horizonMs
    unfold DeepgramStreamClient.keepAliveTrace
    rw [htick]
    generalize DeepgramStreamClient.intervalFireTimes KEEPALIVE_INTERVAL horizonMs = l
    induction l with
    | nil => rfl
    | cons hd tl ih =>
      simp only [Option.map_some'] at ih
      simp [List.filterMap_cons, ih]
  · unfold DeepgramStreamClient.keepAliveTrace
    rw [htick]
    rfl

/-- C6 witness: the keep-alive theorem at a freshly opened session. -/
theorem claim_C6_witness :
    DeepgramStreamClient.keepAliveTrace clientStateFresh KEEPALIVE_INTERVAL 7000 =
      [(5000, DeepgramStreamClient.keepAliveMessage)] :=
  (claim_C6 clientStateFresh rfl).2.1

/-- C7: in the batch pipeline, when the video-time query succeeds the
corrected chunk start equals the current video time minus the chunk's audio
duration, on failure it falls back to the offscreen-computed start, and
every delivered segment is the corresponding recognized segment shifted by
exactly that corrected offset. -/
theorem claim_C7 (cfg : OPConfig) (st : OPState) (segments : List Segment)
    (videoStartTime audioStartTime audioEndTime : ℚ) :
    (∀ t : ℚ, SubtitleService.correctedVideoStartTime (some t) videoStartTime audioStartTime
        audioEndTime = t - (audioEndTime - audioStartTime))
    ∧ SubtitleService.correctedVideoStartTime none videoStartTime audioStartTime audioEndTime =
        videoStartTime
    ∧ ∀ (q : Option ℚ) seg,
        seg ∈ (OverlapProcessor.process cfg st segments
          (SubtitleService.correctedVideoStartTime q videoStartTime audioStartTime
            audioEndTime)).2 →
        ∃ orig ∈ segments,
          seg.start = orig.start + SubtitleService.correctedVideoStartTime q videoStartTime
            audioStartTime audioEndTime ∧
          seg.endTime = orig.endTime + SubtitleService.correctedVideoStartTime q videoStartTime
            audioStartTime audioEndTime ∧
          seg.text = orig.text := by
  refine ⟨fun t => rfl, rfl, ?_⟩
  intro q seg hmem
  exact OverlapProcessor.process_mem_shift cfg st segments _ seg hmem

/-- C7 witness: first chunk with one segment, video time answered 10 s,
audio span 0–3 s: the corrected offset is 7 s and the delivered segment is
the input shifted by 7. -/
theorem claim_C7_witness :
    ({ start := 7, endTime := 8, text := ['h', 'i'] } : Segment).start =
      ({ start := 0, endTime := 1, text := ['h', 'i'] } : Segment).start +
        SubtitleService.correctedVideoStartTime (some 10) 0 0 3 := by
  obtain ⟨orig, horig, h1, h2, h3⟩ :=
    (claim_C7 {} {} [{ start := 0, endTime := 1, text := ['h', 'i'] }] 0 0 3).2.2
      (some 10) { start := 7, endTime := 8, text := ['h', 'i'] }
      (by
        unfold OverlapProcessor.process OverlapProcessor.adjustTimestamps
          SubtitleService.correctedVideoStartTime
        norm_num)
  rw [List.mem_singleton] at horig
  rw [horig] at h1
  exact h1

/-- C9: with the default normalization, equal normalized texts have
similarity exactly 1; `calculateSimilarity` is symmetric; and its value
always lies in `[0, 1]` (for the default unbounded compare length and any
`maxLength` cap alike). -/
theorem claim_C9 (x y : List Char) (mL : Option Nat) :
    (normalizeText x = normalizeText y → calculateSimilarity x y mL = 1)
    ∧ calculateSimilarity x y mL = calculateSimilarity y x mL
    ∧ 0 ≤ calculateSimilarity x y mL ∧ calculateSimilarity x y mL ≤ 1 := by
  refine ⟨?_, calculateSimilarity_comm x y mL,
    (calculateSimilarity_bounds x y mL).1, (calculateSimilarity_bounds x y mL).2⟩
  intro h
  simp only [calculateSimilarity]
  rw [if_pos h]

/-- C9 witness: `"Hello,"` and `"hello"` normalize identically, so their
similarity is 1. -/
theorem claim_C9_witness :
    calculateSimilarity "Hello,".toList "hello".toList none = 1 :=
  (claim_C9 "Hello,".toList "hello".toList none).1 (by decide)

/-- C3: encrypting and then decrypting on the same device (identical
fingerprint and passphrase) returns the plaintext, where the encrypted
record is base64 of `salt (16 bytes) ++ iv (12 bytes) ++ ciphertext` and
decryption re-derives the key from the stored salt. -/
theorem claim_C3 {K : Type} (P : AEADPrimitive K) (fingerprint password : List Char)
    (salt iv : List Nat) (s : List Char) (hs : salt.length = CryptoUtils.SALT_LENGTH)
    (hi : iv.length = CryptoUtils.IV_LENGTH) (hsb : ∀ b ∈ salt, b < 256)
    (hib : ∀ b ∈ iv, b < 256) (hsc : ∀ c ∈ s, c.toNat < 256) :
    CryptoUtils.decryptString P fingerprint password
        (CryptoUtils.encryptString P fingerprint password salt iv s) = some s
    ∧ CryptoUtils.encryptString P fingerprint password salt iv s =
        encodeBase64 (salt ++ iv ++
          P.encryptRaw (P.deriveKey (fingerprint ++ password) salt) iv (s.map Char.toNat)) :=
  ⟨CryptoUtils.decryptString_encryptString P fingerprint password salt iv s hs hi hsb hib hsc,
   rfl⟩

/-- C3 witness: the round trip evaluated on a concrete record. -/
theorem claim_C3_witness :
    CryptoUtils.decryptString idPrimitive ['f', 'p'] []
      (CryptoUtils.encryptString idPrimitive ['f', 'p'] [] (List.replicate 16 0)
        (List.replicate 12 1) "hello".toList) = some "hello".toList :=
  (claim_C3 idPrimitive ['f', 'p'] [] (List.replicate 16 0) (List.replicate 12 1)
    "hello".toList (by decide) (by decide) (by decide) (by decide) (by decide)).1

/-- C10: for a key that passes verification, `verifyAndSave` encrypts and
persists the raw argument, not the trimmed key that `validateFormat`
returned (the verification request itself uses the trimmed key); a later
`getKey` therefore returns the whitespace-padded string, which differs from
the validated key whenever padding was present. -/
theorem claim_C10 {K : Type} (P : AEADPrimitive K) (fingerprint password : List Char)
    (salt iv : List Nat) (apiKey : List Char) (fetchAuth : List Char → FetchOutcome)
    (scopes : List (List Char)) (projectUuid : List Char) (now : Nat) (storage : DGStorage)
    (hfmt : DeepgramKeyManager.validateFormat apiKey = Except.ok (jsTrim apiKey))
    (hfetch : fetchAuth (jsTrim apiKey) = .response 200 scopes projectUuid)
    (hs : salt.length = CryptoUtils.SALT_LENGTH) (hi : iv.length = CryptoUtils.IV_LENGTH)
    (hsb : ∀ b ∈ salt, b < 256) (hib : ∀ b ∈ iv, b < 256)
    (hkc : ∀ c ∈ apiKey, c.toNat < 256) :
    (DeepgramKeyManager.verifyAndSave apiKey fetchAuth
      (fun k => Except.ok (CryptoUtils.encryptString P fingerprint password salt iv k)) now
      storage).1 = Except.ok { scopes := scopes, projectUuid := projectUuid }
    ∧ DeepgramKeyManager.getKey P fingerprint password
        (DeepgramKeyManager.verifyAndSave apiKey fetchAuth
          (fun k => Except.ok (CryptoUtils.encryptString P fingerprint password salt iv k)) now
          storage).2 = Except.ok apiKey
    ∧ (jsTrim apiKey ≠ apiKey →
        DeepgramKeyManager.getKey P fingerprint password
          (DeepgramKeyManager.verifyAndSave apiKey fetchAuth
            (fun k => Except.ok (CryptoUtils.encryptString P fingerprint password salt iv k)) now
            storage).2 ≠ Except.ok (jsTrim apiKey)) := by
  have hver : DeepgramKeyManager.verifyKey apiKey fetchAuth =
      Except.ok { scopes := scopes, projectUuid := projectUuid } := by
    have h1 : DeepgramKeyManager.verifyKey apiKey fetchAuth =
        (match fetchAuth (jsTrim apiKey) with
         | .transportError => Except.error ErrorCode.deepgramNetworkError
         | .response status sc pid =>
           if status = 401 then Except.error ErrorCode.deepgramApiKeyInvalid
           else if status = 403 then Except.error ErrorCode.deepgramApiKeyPermissionDenied
           else if status = 429 then Except.error ErrorCode.deepgramRateLimitExceeded
           else if 500 ≤ status then Except.error ErrorCode.deepgramServiceUnavailable
           else if !(200 ≤ status && status < 300) then Except.error ErrorCode.unknownError
           else Except.ok { scopes := sc, projectUuid := pid }) := by
      simp only [DeepgramKeyManager.verifyKey, hfmt]
      rfl
    rw [h1, hfetch]
    rfl
  have hsave : DeepgramKeyManager.verifyAndSave apiKey fetchAuth
      (fun k => Except.ok (CryptoUtils.encryptString P fingerprint password salt iv k)) now
      storage =
      (Except.ok { scopes := scopes, projectUuid := projectUuid },
       { encryptedKey := some (CryptoUtils.encryptString P fingerprint password salt iv apiKey),
         verifiedAt := some now, scopes := some scopes, projectUuid := some projectUuid }) := by
    simp only [DeepgramKeyManager.verifyAndSave, hver]
  have hget : DeepgramKeyManager.getKey P fingerprint password
      (DeepgramKeyManager.verifyAndSave apiKey fetchAuth
        (fun k => Except.ok (CryptoUtils.encryptString P fingerprint password salt iv k)) now
        storage).2 = Except.ok apiKey := by
    rw [hsave]
    simp only [DeepgramKeyManager.getKey,
      CryptoUtils.decryptString_encryptString P fingerprint password salt iv apiKey
        hs hi hsb hib hkc]
  refine ⟨by rw [hsave], hget, ?_⟩
  intro hne hcontra
  rw [hget] at hcontra
  injection hcontra with hcontra
  exact hne hcontra.symm

/-- C8: every PCM frame emitted by the worklet processor has exactly 320
samples (20 ms at 16 kHz; 640 bytes as signed 16-bit PCM), each sample is
`floor(clamp(x, -1, 1) * 32767)` of the corresponding resampled float
sample (and hence fits in 16-bit signed range), and the processor reads
only channel 0 of the first input. -/
theorem claim_C8 (resampleFactor : ℚ) (s : PCMProcessor.PCMState)
    (inputs : List (List (List ℚ))) (h : PCMProcessor.framesWellFormed s) :
    (∀ f ∈ (PCMProcessor.process resampleFactor s inputs).frames,
        f.length = 320 ∧ 2 * f.length = 640 ∧
        (∃ src : List ℚ, src.length = 320 ∧ f = src.map PCMProcessor.int16OfSample) ∧
        ∀ v ∈ f, -32767 ≤ v ∧ v ≤ 32767)
    ∧ PCMProcessor.framesWellFormed (PCMProcessor.process resampleFactor s inputs)
    ∧ PCMProcessor.frameSize = 320
    ∧ ∀ (ch0 : List ℚ) (chs : List (List ℚ)) (ins : List (List (List ℚ))),
        PCMProcessor.process resampleFactor s ((ch0 :: chs) :: ins) =
          PCMProcessor.process resampleFactor s [[ch0]] := by
  have hwf := PCMProcessor.process_wf resampleFactor s inputs h
  refine ⟨?_, hwf, PCMProcessor.frameSize_eq, fun ch0 chs ins => rfl⟩
  intro f hf
  obtain ⟨src, hsrclen, rfl⟩ := hwf.1 f hf
  have hlen : (PCMProcessor.sendPCMFrame src).length = 320 := by
    simp [PCMProcessor.sendPCMFrame, hsrclen, PCMProcessor.frameSize_eq]
  refine ⟨hlen, by rw [hlen], ⟨src, by rw [hsrclen, PCMProcessor.frameSize_eq], rfl⟩, ?_⟩
  intro v hv
  obtain ⟨x, _, rfl⟩ := List.mem_map.mp hv
  exact PCMProcessor.int16OfSample_bounds x

/-- C8 witness: the theorem applied to the processor's initial state. -/
theorem claim_C8_witness : PCMProcessor.frameSize = 320 :=
  (claim_C8 3 {} []
    ⟨fun f hf => absurd hf (List.not_mem_nil f),
     by rw [PCMProcessor.frameSize_eq]; norm_num⟩).2.2.1

/-- C10 witness: a whitespace-padded 32-character key verifies, and
`getKey` returns the padded string rather than the trimmed key. -/
theorem claim_C10_witness :
    DeepgramKeyManager.getKey idPrimitive ['f'] []
      (DeepgramKeyManager.verifyAndSave paddedApiKey accept200
        (fun k => Except.ok (CryptoUtils.encryptString idPrimitive ['f'] []
          (List.replicate 16 0) (List.replicate 12 1) k)) 0 {}).2 =
      Except.ok paddedApiKey :=
  (claim_C10 idPrimitive ['f'] [] (List.replicate 16 0) (List.replicate 12 1) paddedApiKey
    accept200 [] [] 0 {} (by rfl) (by rfl) (by decide) (by decide) (by decide) (by decide)
    (by decide)).2.1

end BabelBridge
